import Mathlib

/-!
Shallow embedding of the Pok-Deng round engine (`main.py`).

The source keeps three global mutable values: `player`, `dealer` (both
instances of the pydantic model `Player`) and `deck` (a Python list of
`Card`).  We model them as a `GameState` record threaded explicitly
through the two operations `play_round` and `new_game`.

`random.shuffle(deck)` is modelled by an injectable oracle
`shuffle : List Card → List Card`; theorems that need the shuffle to
behave like a real permutation take a hypothesis on the oracle
(length preservation suffices for every claim below).

Python's `list.pop()` removes the LAST element of the list and raises
`IndexError` on an empty list; we model it by `popEnd` returning an
`Option`, and `play_round` returns `none` exactly when the source would
raise.  Python `%` on integers agrees with Lean's `Int` `%` (both return
a result with the sign of the divisor), so `calculate_score` translates
literally.
-/

/-- `class Card(BaseModel)`: suit, rank, value. -/
structure Card where
  suit : String
  rank : String
  value : Int
deriving DecidableEq

/-- `class Player(BaseModel)`: hand of cards, score, chips (defaults
`[]`, `0`, `100`).  The source uses this one model for the player AND
the dealer. -/
structure Player where
  hand : List Card := []
  score : Int := 0
  chips : Int := 100
deriving DecidableEq

/-- The default-constructed `Player()` of the source. -/
def Player.init : Player := {}

/-- The suit list of `create_deck`, in source order. -/
def suits : List String := ["Hearts", "Diamonds", "Clubs", "Spades"]

/-- The `ranks` dict of `create_deck`; Python dicts iterate in insertion
order, so it is faithfully a list of (rank, value) pairs. -/
def ranks : List (String × Int) :=
  [("2", 2), ("3", 3), ("4", 4), ("5", 5), ("6", 6), ("7", 7), ("8", 8), ("9", 9),
   ("10", 0), ("Jack", 0), ("Queen", 0), ("King", 0), ("Ace", 1)]

/-- `create_deck()`: the suit-major, rank-minor list comprehension of
the source. -/
def create_deck : List Card :=
  suits.flatMap fun s => ranks.map fun rv => { suit := s, rank := rv.1, value := rv.2 }

/-- `calculate_score(hand)`: sum of card values modulo 10. -/
def calculate_score (hand : List Card) : Int :=
  (hand.map Card.value).sum % 10

/-- The JSON payload returned by `play_round` in the non-error case. -/
structure RoundResponse where
  player_hand : List Card
  dealer_hand : List Card
  player_score : Int
  dealer_score : Int
  result : String
  player_chips : Int
  game_over : Bool
deriving DecidableEq

/-- The JSON payload returned by `new_game`. -/
structure NewGameResponse where
  message : String
  player_chips : Int
deriving DecidableEq

/-- The global mutable state triple of the source module. -/
structure GameState where
  player : Player
  dealer : Player
  deck : List Card
deriving DecidableEq

/-- The module-level initial state: `player = Player()`,
`dealer = Player()`, `deck = create_deck()`. -/
def gameInit : GameState :=
  { player := Player.init, dealer := Player.init, deck := create_deck }

/-- Python `deck.pop()`: removes and returns the last element;
`none` models the `IndexError` on an empty list. -/
def popEnd (l : List Card) : Option (Card × List Card) :=
  match l.getLast? with
  | none => none
  | some c => some (c, l.dropLast)

/-- The four consecutive `deck.pop()` calls of `play_round`, in source
evaluation order: the first two popped cards form the player's hand, the
next two the dealer's hand, and the rest is the remaining deck. -/
def deal (d : List Card) : Option (Card × Card × Card × Card × List Card) :=
  match popEnd d with
  | none => none
  | some (p1, d1) =>
    match popEnd d1 with
    | none => none
    | some (p2, d2) =>
      match popEnd d2 with
      | none => none
      | some (q1, d3) =>
        match popEnd d3 with
        | none => none
        | some (q2, d4) => some (p1, p2, q1, q2, d4)

/-- The tail of `play_round` after a successful deal: scoring, the
win/lose/tie comparison with chip adjustment, the game-over check, and
the construction of the response and of the mutated state.  The dealer's
`chips` field is untouched by the source, so it is carried over. -/
def resolveRound (bet : Int) (s : GameState) (p1 p2 q1 q2 : Card) (rest : List Card) :
    RoundResponse × GameState :=
  let phand := [p1, p2]
  let dhand := [q1, q2]
  let pscore := calculate_score phand
  let dscore := calculate_score dhand
  let rc :=
    if pscore > dscore then ("You win!", s.player.chips + bet)
    else if pscore < dscore then ("You lose!", s.player.chips - bet)
    else ("It\x27s a tie!", s.player.chips)
  ({ player_hand := phand, dealer_hand := dhand, player_score := pscore,
     dealer_score := dscore, result := rc.1, player_chips := rc.2,
     game_over := decide (rc.2 ≤ 0) },
   { player := { hand := phand, score := pscore, chips := rc.2 },
     dealer := { hand := dhand, score := dscore, chips := s.dealer.chips },
     deck := rest })

/-- `play_round(bet)` of the source, over an explicit state and shuffle
oracle.  `Except.error` is the structured `{"error": ...}` payload;
the overall `none` models the (unreachable in the real program)
`IndexError` of popping an exhausted list. -/
def play_round (shuffle : List Card → List Card) (bet : Int) (s : GameState) :
    Option (Except String RoundResponse × GameState) :=
  if bet ≤ 0 then
    some (Except.error "Bet must be a positive number.", s)
  else if s.player.chips < bet then
    some (Except.error "Not enough chips to place that bet.", s)
  else
    match deal (shuffle (if s.deck.length < 4 then create_deck else s.deck)) with
    | none => none
    | some (p1, p2, q1, q2, rest) =>
      let rs := resolveRound bet s p1 p2 q1 q2 rest
      some (Except.ok rs.1, rs.2)

/-- `new_game()`: reinitializes the three globals and reports the reset
chip count. -/
def new_game (_s : GameState) : NewGameResponse × GameState :=
  let s' : GameState := { player := Player.init, dealer := Player.init, deck := create_deck }
  ({ message := "New game started.", player_chips := s'.player.chips }, s')

/-- An abstract client operation against the service: one `/play`
request (with the shuffle the kernel happened to produce) or one
`/new_game` request. -/
inductive GameOp where
  | play (shuffle : List Card → List Card) (bet : Int)
  | reset

/-- One request applied to the global state.  A `/play` request that
would raise (impossible with a genuine in-place shuffle) leaves the
chips untouched, as the source mutates chips only after all four pops
succeed. -/
def step (op : GameOp) (s : GameState) : GameState :=
  match op with
  | .play shuffle bet =>
    match play_round shuffle bet s with
    | some (_, s') => s'
    | none => s
  | .reset => (new_game s).2

/-- A whole session: a sequence of requests applied in order. -/
def run (ops : List GameOp) (s : GameState) : GameState :=
  ops.foldl (fun t op => step op t) s

/-! ### Helper lemmas about dealing -/

/-- Popping from the end of a nonempty list returns its last element and
the list without it. -/
theorem popEnd_concat (l : List Card) (x : Card) : popEnd (l ++ [x]) = some (x, l) := by
  simp [popEnd]

/-- `deal` on a deck ending in four cards pops them back to front. -/
theorem deal_concat (t : List Card) (p1 p2 q1 q2 : Card) :
    deal (t ++ [q2, q1, p2, p1]) = some (p1, p2, q1, q2, t) := by
  have h : t ++ [q2, q1, p2, p1] = (((t ++ [q2]) ++ [q1]) ++ [p2]) ++ [p1] := by simp
  rw [h]
  simp only [deal, popEnd_concat]

/-- Any deck of at least four cards splits as a prefix plus its last
four cards, and `deal` succeeds on it, returning exactly those cards. -/
theorem deal_of_four_le (d : List Card) (h : 4 ≤ d.length) :
    ∃ p1 p2 q1 q2 t, d = t ++ [q2, q1, p2, p1] ∧
      deal d = some (p1, p2, q1, q2, t) := by
  have h4 : 4 ≤ d.reverse.length := by simpa using h
  rcases hr : d.reverse with _ | ⟨p1, l1⟩
  · rw [hr] at h4; simp at h4
  rcases l1 with _ | ⟨p2, l2⟩
  · rw [hr] at h4; simp at h4
  rcases l2 with _ | ⟨q1, l3⟩
  · rw [hr] at h4; simp at h4
  rcases l3 with _ | ⟨q2, t⟩
  · rw [hr] at h4; simp at h4
  have hd : d = t.reverse ++ [q2, q1, p2, p1] := by
    have := congrArg List.reverse hr
    simpa using this
  exact ⟨p1, p2, q1, q2, t.reverse, hd, by rw [hd]; exact deal_concat _ _ _ _ _⟩

/-! ### Inversion and introduction lemmas for `play_round` -/

/-- Introduction: with a valid bet and a successful deal, `play_round`
returns the resolved round. -/
theorem play_round_eq_of_deal (shuffle : List Card → List Card) (bet : Int)
    (s : GameState) (p1 p2 q1 q2 : Card) (rest : List Card)
    (hb : ¬ bet ≤ 0) (hc : ¬ s.player.chips < bet)
    (hd : deal (shuffle (if s.deck.length < 4 then create_deck else s.deck)) =
      some (p1, p2, q1, q2, rest)) :
    play_round shuffle bet s =
      some (Except.ok (resolveRound bet s p1 p2 q1 q2 rest).1,
        (resolveRound bet s p1 p2 q1 q2 rest).2) := by
  unfold play_round
  rw [if_neg hb, if_neg hc, hd]

/-- Inversion: any `some` result of `play_round` is either one of the
two validation errors with untouched state, or a resolved round after a
successful deal. -/
theorem play_round_cases (shuffle : List Card → List Card) (bet : Int) (s : GameState)
    (r : Except String RoundResponse) (t : GameState)
    (h : play_round shuffle bet s = some (r, t)) :
    (t = s ∧ (∃ m, r = Except.error m) ∧ (bet ≤ 0 ∨ s.player.chips < bet)) ∨
    (¬ bet ≤ 0 ∧ ¬ s.player.chips < bet ∧
      ∃ p1 p2 q1 q2 rest,
        deal (shuffle (if s.deck.length < 4 then create_deck else s.deck)) =
          some (p1, p2, q1, q2, rest) ∧
        r = Except.ok (resolveRound bet s p1 p2 q1 q2 rest).1 ∧
        t = (resolveRound bet s p1 p2 q1 q2 rest).2) := by
  unfold play_round at h
  by_cases hb : bet ≤ 0
  · rw [if_pos hb] at h
    simp only [Option.some.injEq, Prod.mk.injEq] at h
    exact Or.inl ⟨h.2.symm, ⟨_, h.1.symm⟩, Or.inl hb⟩
  rw [if_neg hb] at h
  by_cases hc : s.player.chips < bet
  · rw [if_pos hc] at h
    simp only [Option.some.injEq, Prod.mk.injEq] at h
    exact Or.inl ⟨h.2.symm, ⟨_, h.1.symm⟩, Or.inr hc⟩
  rw [if_neg hc] at h
  rcases hdeal : deal (shuffle (if s.deck.length < 4 then create_deck else s.deck)) with
    _ | ⟨p1, p2, q1, q2, rest⟩
  · rw [hdeal] at h; simp at h
  · rw [hdeal] at h
    simp only [Option.some.injEq, Prod.mk.injEq] at h
    exact Or.inr ⟨hb, hc, p1, p2, q1, q2, rest, rfl, h.1.symm, h.2.symm⟩

/-! ### Spec-side deck description (for the refinement claim C5) -/

/-- Transcribed from the spec wording, NOT from the source: the fixed
rank ordering "2,3,...,9,10,Jack,Queen,King,Ace". -/
def specRankOrder : List String :=
  ["2", "3", "4", "5", "6", "7", "8", "9", "10", "Jack", "Queen", "King", "Ace"]

/-- Transcribed from the spec wording, NOT from the source: number cards
2-9 equal their face value, 10/Jack/Queen/King are worth 0, Ace is 1. -/
def specValue (r : String) : Int :=
  if r = "2" then 2 else if r = "3" then 3 else if r = "4" then 4
  else if r = "5" then 5 else if r = "6" then 6 else if r = "7" then 7
  else if r = "8" then 8 else if r = "9" then 9
  else if r = "Ace" then 1 else 0

/-- C5: `create_deck` deterministically returns exactly 52 cards, one
per (suit, rank) pair with no duplicates, enumerated suit-major and
rank-minor in the fixed rank order 2,...,9,10,Jack,Queen,King,Ace, with
the spec's value assignment (so every value is in 0-9), and performs no
shuffling at construction (the result is literally the orderly
suit-major enumeration). -/
theorem create_deck_enumeration :
    create_deck.length = 52 ∧
    (create_deck.map fun c => (c.suit, c.rank)).Nodup ∧
    create_deck =
      suits.flatMap (fun s => specRankOrder.map fun r =>
        { suit := s, rank := r, value := specValue r }) ∧
    ∀ c ∈ create_deck, 0 ≤ c.value ∧ c.value ≤ 9 :=
  ⟨by decide, by decide, by decide, by decide⟩

/-- Witness for C5 at a concrete card. -/
theorem create_deck_enumeration_witness :
    (⟨"Hearts", "2", 2⟩ : Card) ∈ create_deck ∧
      0 ≤ (⟨"Hearts", "2", 2⟩ : Card).value ∧ (⟨"Hearts", "2", 2⟩ : Card).value ≤ 9 :=
  ⟨by decide, create_deck_enumeration.2.2.2 ⟨"Hearts", "2", 2⟩ (by decide)⟩

/-- C4: `calculate_score` returns the sum of the card values modulo 10;
on any 2-card hand with values in {0,...,9} the result lies in [0, 9];
and in a valid round it is applied independently to the player's and the
dealer's hands (the reported scores are exactly `calculate_score` of the
reported hands). -/
theorem calculate_score_mod_ten :
    (∀ hand : List Card, calculate_score hand = (hand.map Card.value).sum % 10) ∧
    (∀ c1 c2 : Card, 0 ≤ c1.value → c1.value ≤ 9 → 0 ≤ c2.value → c2.value ≤ 9 →
      0 ≤ calculate_score [c1, c2] ∧ calculate_score [c1, c2] ≤ 9) ∧
    (∀ (shuffle : List Card → List Card) (bet : Int) (s : GameState)
        (resp : RoundResponse) (s' : GameState),
      play_round shuffle bet s = some (Except.ok resp, s') →
      resp.player_score = calculate_score resp.player_hand ∧
      resp.dealer_score = calculate_score resp.dealer_hand) := by
  refine ⟨fun hand => rfl, ?_, ?_⟩
  · intro c1 c2 h1 h2 h3 h4
    simp only [calculate_score, List.map_cons, List.map_nil, List.sum_cons,
      List.sum_nil, add_zero]
    constructor <;> omega
  · intro shuffle bet s resp s' h
    rcases play_round_cases shuffle bet s _ _ h with
      ⟨_, ⟨m, hm⟩, _⟩ | ⟨_, _, p1, p2, q1, q2, rest, _, hr, _⟩
    · exact absurd hm (by simp)
    · cases hr
      exact ⟨rfl, rfl⟩

/-- Witness for C4 at a concrete 2-card hand. -/
theorem calculate_score_mod_ten_witness :
    0 ≤ calculate_score [⟨"Hearts", "7", 7⟩, ⟨"Spades", "8", 8⟩] ∧
      calculate_score [⟨"Hearts", "7", 7⟩, ⟨"Spades", "8", 8⟩] ≤ 9 :=
  calculate_score_mod_ten.2.1 ⟨"Hearts", "7", 7⟩ ⟨"Spades", "8", 8⟩
    (by decide) (by decide) (by decide) (by decide)

/-- C8: `new_game`, from any state whatsoever, resets the player and the
dealer to the default state (chips exactly 100, empty hand, score 0),
replaces the deck with a fresh unshuffled `create_deck`, and reports the
reset chip count of 100. -/
theorem new_game_resets (s : GameState) :
    (new_game s).2.player = Player.init ∧
    (new_game s).2.player.chips = 100 ∧
    (new_game s).2.player.hand = [] ∧
    (new_game s).2.player.score = 0 ∧
    (new_game s).2.dealer.hand = [] ∧
    (new_game s).2.dealer.score = 0 ∧
    (new_game s).2.deck = create_deck ∧
    (new_game s).1.player_chips = 100 :=
  ⟨rfl, rfl, rfl, rfl, rfl, rfl, rfl, rfl⟩

/-- C2: `play_round` answers with the structured error payload exactly
when `bet ≤ 0` or `bet` exceeds the current chips (a bet equal to the
chips is accepted), and every error answer leaves the state untouched. -/
theorem play_round_error_spec (shuffle : List Card → List Card) (bet : Int)
    (s : GameState) :
    (∀ m t, play_round shuffle bet s = some (Except.error m, t) →
      (bet ≤ 0 ∨ s.player.chips < bet) ∧ t = s) ∧
    (bet ≤ 0 →
      play_round shuffle bet s =
        some (Except.error "Bet must be a positive number.", s)) ∧
    (¬ bet ≤ 0 → s.player.chips < bet →
      play_round shuffle bet s =
        some (Except.error "Not enough chips to place that bet.", s)) := by
  refine ⟨?_, ?_, ?_⟩
  · intro m t h
    rcases play_round_cases shuffle bet s _ _ h with
      ⟨ht, _, hcond⟩ | ⟨_, _, p1, p2, q1, q2, rest, _, hr, _⟩
    · exact ⟨hcond, ht⟩
    · exact absurd hr (by simp)
  · intro hb
    unfold play_round
    rw [if_pos hb]
  · intro hb hc
    unfold play_round
    rw [if_neg hb, if_pos hc]

/-- Witness for C2: the zero bet is rejected with the exact payload and
an untouched state. -/
theorem play_round_error_spec_witness :
    play_round (fun l => l) 0 gameInit =
      some (Except.error "Bet must be a positive number.", gameInit) :=
  (play_round_error_spec (fun l => l) 0 gameInit).2.1 (by decide)

/-! ### A concrete round, used by several witnesses -/

/-- The response of the concrete round: identity shuffle, bet 5, initial
state (the player receives Ace and King of Spades, the dealer Queen and
Jack of Spades). -/
def demoResp : RoundResponse :=
  { player_hand := [⟨"Spades", "Ace", 1⟩, ⟨"Spades", "King", 0⟩],
    dealer_hand := [⟨"Spades", "Queen", 0⟩, ⟨"Spades", "Jack", 0⟩],
    player_score := 1, dealer_score := 0, result := "You win!",
    player_chips := 105, game_over := false }

/-- The state after the concrete round. -/
def demoState : GameState :=
  { player := { hand := [⟨"Spades", "Ace", 1⟩, ⟨"Spades", "King", 0⟩],
                score := 1, chips := 105 },
    dealer := { hand := [⟨"Spades", "Queen", 0⟩, ⟨"Spades", "Jack", 0⟩],
                score := 0, chips := 100 },
    deck := create_deck.dropLast.dropLast.dropLast.dropLast }

/-- The concrete round evaluates as stated. -/
theorem demo_run :
    play_round (fun l => l) 5 gameInit = some (Except.ok demoResp, demoState) := rfl

/-- C1: in every valid round the outcome is decided by the numeric
comparison of the two scores: a strictly greater player score yields
"You win!" and chips increased by exactly the bet, a strictly smaller
one yields "You lose!" and chips decreased by exactly the bet, and equal
scores yield the tie message with chips unchanged; the reported chip
count is the updated one. -/
theorem play_round_outcome (shuffle : List Card → List Card) (bet : Int)
    (s : GameState) (resp : RoundResponse) (s' : GameState)
    (_hb : 0 < bet) (_hc : bet ≤ s.player.chips)
    (h : play_round shuffle bet s = some (Except.ok resp, s')) :
    resp.player_chips = s'.player.chips ∧
    (resp.dealer_score < resp.player_score →
      resp.result = "You win!" ∧ s'.player.chips = s.player.chips + bet) ∧
    (resp.player_score < resp.dealer_score →
      resp.result = "You lose!" ∧ s'.player.chips = s.player.chips - bet) ∧
    (resp.player_score = resp.dealer_score →
      resp.result = "It\x27s a tie!" ∧ s'.player.chips = s.player.chips) := by
  rcases play_round_cases shuffle bet s _ _ h with
    ⟨_, ⟨m, hm⟩, _⟩ | ⟨_, _, p1, p2, q1, q2, rest, _, hr, hs⟩
  · exact absurd hm (by simp)
  cases hr; cases hs
  dsimp only [resolveRound]
  split_ifs with h1 h2
  · exact ⟨rfl, fun _ => ⟨rfl, rfl⟩,
      fun hlt => absurd hlt (by omega), fun heq => absurd heq (by omega)⟩
  · exact ⟨rfl, fun hgt => absurd hgt (by omega), fun _ => ⟨rfl, rfl⟩,
      fun heq => absurd heq (by omega)⟩
  · exact ⟨rfl, fun hgt => absurd hgt (by omega),
      fun hlt => absurd hlt (by omega), fun _ => ⟨rfl, rfl⟩⟩

/-- Witness for C1 on the concrete round (a win by 1 to 0). -/
theorem play_round_outcome_witness :
    demoResp.result = "You win!" ∧
      demoState.player.chips = gameInit.player.chips + 5 :=
  (play_round_outcome (fun l => l) 5 gameInit demoResp demoState
    (by decide) (by decide) demo_run).2.1 (by decide)

/-- C3: in every valid round the reported game-over flag is true exactly
when the updated chip count is ≤ 0, and the reported chip count is the
updated one. -/
theorem play_round_game_over_flag (shuffle : List Card → List Card) (bet : Int)
    (s : GameState) (resp : RoundResponse) (s' : GameState)
    (h : play_round shuffle bet s = some (Except.ok resp, s')) :
    (resp.game_over = true ↔ s'.player.chips ≤ 0) ∧
    resp.player_chips = s'.player.chips := by
  rcases play_round_cases shuffle bet s _ _ h with
    ⟨_, ⟨m, hm⟩, _⟩ | ⟨_, _, p1, p2, q1, q2, rest, _, hr, hs⟩
  · exact absurd hm (by simp)
  cases hr; cases hs
  refine ⟨?_, rfl⟩
  dsimp only [resolveRound]
  exact decide_eq_true_iff

/-- Witness for C3 on the concrete round (flag false, chips 105 > 0). -/
theorem play_round_game_over_flag_witness :
    (demoResp.game_over = true ↔ demoState.player.chips ≤ 0) ∧
    demoResp.player_chips = demoState.player.chips :=
  play_round_game_over_flag (fun l => l) 5 gameInit demoResp demoState demo_run

/-- C6: every valid round deals by sequential removal from one end of
the (possibly reconstructed, then shuffled) deck: the first two removed
cards form the player's hand, the next two the dealer's hand, each party
ends up with exactly 2 cards, and the deck shrinks by exactly 4 (the
shuffled deck is the remaining deck followed by the four dealt cards in
removal order). -/
theorem play_round_deals_four (shuffle : List Card → List Card) (bet : Int)
    (s : GameState)
    (hlen : ∀ l : List Card, (shuffle l).length = l.length)
    (hb : 0 < bet) (hc : bet ≤ s.player.chips) :
    ∃ resp s', play_round shuffle bet s = some (Except.ok resp, s') ∧
      resp.player_hand.length = 2 ∧ resp.dealer_hand.length = 2 ∧
      s'.player.hand = resp.player_hand ∧ s'.dealer.hand = resp.dealer_hand ∧
      shuffle (if s.deck.length < 4 then create_deck else s.deck) =
        s'.deck ++ (resp.player_hand ++ resp.dealer_hand).reverse ∧
      s'.deck.length + 4 = (if s.deck.length < 4 then create_deck else s.deck).length := by
  have h4 : 4 ≤ (shuffle (if s.deck.length < 4 then create_deck else s.deck)).length := by
    rw [hlen]
    by_cases hd : s.deck.length < 4
    · rw [if_pos hd]; decide
    · rw [if_neg hd]; omega
  obtain ⟨p1, p2, q1, q2, t, hsplit, hdeal⟩ := deal_of_four_le _ h4
  refine ⟨(resolveRound bet s p1 p2 q1 q2 t).1, (resolveRound bet s p1 p2 q1 q2 t).2,
    play_round_eq_of_deal shuffle bet s p1 p2 q1 q2 t (by omega) (by omega) hdeal,
    rfl, rfl, rfl, rfl, ?_, ?_⟩
  · exact hsplit
  · have hL := congrArg List.length hsplit
    rw [hlen] at hL
    simp only [List.length_append, List.length_cons, List.length_nil] at hL
    dsimp only [resolveRound]
    omega

/-- Witness for C6 on the concrete round. -/
theorem play_round_deals_four_witness :
    ∃ resp s', play_round (fun l => l) 5 gameInit = some (Except.ok resp, s') ∧
      resp.player_hand.length = 2 ∧ resp.dealer_hand.length = 2 ∧
      s'.player.hand = resp.player_hand ∧ s'.dealer.hand = resp.dealer_hand ∧
      (fun l : List Card => l)
          (if gameInit.deck.length < 4 then create_deck else gameInit.deck) =
        s'.deck ++ (resp.player_hand ++ resp.dealer_hand).reverse ∧
      s'.deck.length + 4 =
        (if gameInit.deck.length < 4 then create_deck else gameInit.deck).length :=
  play_round_deals_four (fun l => l) 5 gameInit (fun l => rfl) (by decide) (by decide)

/-- C7: in every valid round starting with fewer than 4 cards in the
deck, the round runs on a freshly constructed 52-card deck (shuffled),
so the deck holds exactly 48 ≥ 48 cards right after the round; with 4 or
more cards no reconstruction happens and the round runs on the old deck,
which shrinks by exactly 4. -/
theorem play_round_deck_reconstruction (shuffle : List Card → List Card) (bet : Int)
    (s : GameState)
    (hlen : ∀ l : List Card, (shuffle l).length = l.length)
    (hb : 0 < bet) (hc : bet ≤ s.player.chips) :
    ∃ resp s', play_round shuffle bet s = some (Except.ok resp, s') ∧
      (s.deck.length < 4 →
        (∃ dealt, shuffle create_deck = s'.deck ++ dealt ∧ dealt.length = 4) ∧
        s'.deck.length = 48) ∧
      (4 ≤ s.deck.length →
        (∃ dealt, shuffle s.deck = s'.deck ++ dealt ∧ dealt.length = 4) ∧
        s'.deck.length + 4 = s.deck.length) := by
  by_cases hd : s.deck.length < 4
  · have h4 : 4 ≤ (shuffle create_deck).length := by rw [hlen]; decide
    obtain ⟨p1, p2, q1, q2, t, hsplit, hdeal⟩ := deal_of_four_le _ h4
    have hdeal' :
        deal (shuffle (if s.deck.length < 4 then create_deck else s.deck)) =
          some (p1, p2, q1, q2, t) := by
      rw [if_pos hd]; exact hdeal
    refine ⟨(resolveRound bet s p1 p2 q1 q2 t).1, (resolveRound bet s p1 p2 q1 q2 t).2,
      play_round_eq_of_deal shuffle bet s p1 p2 q1 q2 t (by omega) (by omega) hdeal',
      ?_, ?_⟩
    · intro _
      have hL := congrArg List.length hsplit
      rw [hlen] at hL
      simp only [List.length_append, List.length_cons, List.length_nil] at hL
      have h52 : create_deck.length = 52 := by decide
      refine ⟨⟨[q2, q1, p2, p1], hsplit, rfl⟩, ?_⟩
      dsimp only [resolveRound]
      omega
    · intro h4'
      exact absurd h4' (by omega)
  · have h4 : 4 ≤ (shuffle s.deck).length := by rw [hlen]; omega
    obtain ⟨p1, p2, q1, q2, t, hsplit, hdeal⟩ := deal_of_four_le _ h4
    have hdeal' :
        deal (shuffle (if s.deck.length < 4 then create_deck else s.deck)) =
          some (p1, p2, q1, q2, t) := by
      rw [if_neg hd]; exact hdeal
    refine ⟨(resolveRound bet s p1 p2 q1 q2 t).1, (resolveRound bet s p1 p2 q1 q2 t).2,
      play_round_eq_of_deal shuffle bet s p1 p2 q1 q2 t (by omega) (by omega) hdeal',
      ?_, ?_⟩
    · intro hlt
      exact absurd hlt hd
    · intro _
      have hL := congrArg List.length hsplit
      rw [hlen] at hL
      simp only [List.length_append, List.length_cons, List.length_nil] at hL
      refine ⟨⟨[q2, q1, p2, p1], hsplit, rfl⟩, ?_⟩
      dsimp only [resolveRound]
      omega

/-- Witness for C7: a one-card deck forces reconstruction and the round
ends with at least 48 cards in the deck. -/
theorem play_round_deck_reconstruction_witness :
    ∃ resp s',
      play_round (fun l => l) 5
          { player := Player.init, dealer := Player.init,
            deck := [⟨"Hearts", "2", 2⟩] } =
        some (Except.ok resp, s') ∧
      ((∃ dealt, (fun l : List Card => l) create_deck = s'.deck ++ dealt ∧
          dealt.length = 4) ∧
        s'.deck.length = 48) := by
  obtain ⟨resp, s', h1, h2, _⟩ :=
    play_round_deck_reconstruction (fun l => l) 5
      { player := Player.init, dealer := Player.init, deck := [⟨"Hearts", "2", 2⟩] }
      (fun l => rfl) (by decide) (by decide)
  exact ⟨resp, s', h1, h2 (by decide)⟩

/-- C9 counterexample: the dealer's state does NOT consist of a hand and
a score alone — the source builds the dealer from the same `Player`
model as the player, so the dealer record carries a chip balance, equal
to 100 in the initial state. -/
theorem dealer_state_has_chips : gameInit.dealer.chips = 100 := rfl

/-- C9 amended: the dealer record does carry a chips field (the source
reuses the `Player` model, so the dealer starts with 100 chips), but no
operation uses it: every `play_round` answer leaves the dealer's chips
unchanged, the whole behaviour of `play_round` is independent of the
dealer's chips (changing them changes nothing but that same stored
field), and `new_game` resets them to the default 100. -/
theorem dealer_chips_never_used (shuffle : List Card → List Card) (bet : Int)
    (s : GameState) (c : Int) :
    (∀ r t, play_round shuffle bet s = some (r, t) →
      t.dealer.chips = s.dealer.chips) ∧
    play_round shuffle bet
        { player := s.player,
          dealer := { hand := s.dealer.hand, score := s.dealer.score, chips := c },
          deck := s.deck } =
      (play_round shuffle bet s).map (fun p =>
        (p.1, { player := p.2.player,
                dealer := { hand := p.2.dealer.hand, score := p.2.dealer.score,
                            chips := c },
                deck := p.2.deck })) ∧
    (new_game s).2.dealer.chips = 100 := by
  refine ⟨?_, ?_, rfl⟩
  · intro r t h
    rcases play_round_cases shuffle bet s _ _ h with
      ⟨ht, _, _⟩ | ⟨_, _, p1, p2, q1, q2, rest, _, _, ht⟩
    · rw [ht]
    · rw [ht]
      rfl
  · unfold play_round
    dsimp only
    by_cases hb : bet ≤ 0
    · simp [hb]
    by_cases hc : s.player.chips < bet
    · simp [hb, hc]
    simp only [if_neg hb, if_neg hc]
    rcases _hdeal : deal (shuffle (if s.deck.length < 4 then create_deck else s.deck))
      with _ | ⟨p1, p2, q1, q2, rest⟩
    · rfl
    · dsimp only [resolveRound]
      rfl

/-- Witness for C9 on the concrete round: the dealer's chips after the
round equal the dealer's chips before it. -/
theorem dealer_chips_never_used_witness :
    demoState.dealer.chips = gameInit.dealer.chips :=
  (dealer_chips_never_used (fun l => l) 5 gameInit 0).1
    (Except.ok demoResp) demoState demo_run

/-! ### The chip invariant (C10) -/

/-- One request never turns a nonnegative chip balance negative. -/
theorem step_chips_nonneg (op : GameOp) (s : GameState)
    (h : 0 ≤ s.player.chips) : 0 ≤ (step op s).player.chips := by
  cases op with
  | play shuffle bet =>
    dsimp only [step]
    cases hp : play_round shuffle bet s with
    | none => exact h
    | some rt =>
      obtain ⟨r, t⟩ := rt
      show 0 ≤ t.player.chips
      rcases play_round_cases shuffle bet s r t hp with
        ⟨ht, _, _⟩ | ⟨hb, hc, p1, p2, q1, q2, rest, _, _, ht⟩
      · rw [ht]; exact h
      · rw [ht]
        dsimp only [resolveRound]
        split_ifs with h1 h2
        · show 0 ≤ s.player.chips + bet
          omega
        · show 0 ≤ s.player.chips - bet
          omega
        · exact h
  | reset =>
    show (0 : Int) ≤ 100
    decide

/-- A whole session never turns a nonnegative chip balance negative. -/
theorem run_chips_nonneg (ops : List GameOp) (s : GameState)
    (h : 0 ≤ s.player.chips) : 0 ≤ (run ops s).player.chips := by
  induction ops generalizing s with
  | nil => exact h
  | cons op ops ih => exact ih (step op s) (step_chips_nonneg op s h)

/-- C10: starting from the initial state (100 chips), the player's chips
stay ≥ 0 after every sequence of requests, and once the chips are ≤ 0
every positive bet is rejected with the insufficient-chips error and an
untouched state, so play is effectively blocked after game-over. -/
theorem chips_never_negative :
    (∀ ops : List GameOp, 0 ≤ (run ops gameInit).player.chips) ∧
    (∀ (shuffle : List Card → List Card) (bet : Int) (s : GameState),
      s.player.chips ≤ 0 → 0 < bet →
      play_round shuffle bet s =
        some (Except.error "Not enough chips to place that bet.", s)) := by
  constructor
  · intro ops
    exact run_chips_nonneg ops gameInit (by decide)
  · intro shuffle bet s h0 hb
    unfold play_round
    rw [if_neg (by omega), if_pos (by omega)]

/-- Witness for C10: the empty session, and a concrete bankrupt state in
which a bet of 1 is rejected. -/
theorem chips_never_negative_witness :
    0 ≤ (run [] gameInit).player.chips ∧
    play_round (fun l => l) 1
        { player := { hand := [], score := 0, chips := 0 },
          dealer := Player.init, deck := create_deck } =
      some (Except.error "Not enough chips to place that bet.",
        { player := { hand := [], score := 0, chips := 0 },
          dealer := Player.init, deck := create_deck }) :=
  ⟨chips_never_negative.1 [],
    chips_never_negative.2 (fun l => l) 1
      { player := { hand := [], score := 0, chips := 0 },
        dealer := Player.init, deck := create_deck } (by decide) (by decide)⟩
